import Mathlib

/-!
Verification of the SmarticleTracking pose-tracking core.

This file shallowly embeds the tracking state machine of
`smarticletracking/tracking_object.py` (class `TrackingObject`) and the
orchestration of `src/tracking.py` (class `Tracking`), and settles the
frozen claims about them.

Modelling conventions:

* Numeric values (timestamps, pose components, scale factors) are rationals;
  the Python code computes with floats, and the claims under study are about
  exact linear-algebraic identities, counters and list shapes, for which ℚ is
  the faithful idealisation.
* `self.x` and the entries of `self.history` are numpy arrays, i.e. mutable
  heap cells.  `TrackingObject` code appends `self.x` to the history by
  reference, and `_smooth_missed_frames` mutates entries in place with `+=`.
  To capture this the model keeps an explicit `store : List Pose` of array
  cells; `x` and the history hold cell indices into the store.
* The angle geometry of `_get_state` (atan2 of corner geometry, `np.mod`
  wrapping) is real-valued and is modelled exactly over ℝ in the Geometry
  section below.  At the state-machine level a detection is represented by
  the data `_get_state` derives from it: the detection centre `(cx, cy)`
  (to which the offset is added) and the wrapped heading increment `dth`
  (the value `mod(pi + (raw - prev), 2*pi) - pi`, whose range is proved in
  the Geometry section); the new theta is `previous theta + dth` exactly as
  on lines 96-98 of the source.  Likewise `diag` stands for the
  sqrt2-normalised pixel diagonal `diag_pixel / sqrt 2` of
  `_get_scale_factor`, so that the stored scale factor is `diag / tag_length`.
* Exceptions raised by the Python code (`assert`, `TypeError` from
  subscripting `None`, `ZeroDivisionError`, `IndexError` from a deque
  negative index out of range) are modelled by `Except`; the error payload
  of the state-mutating operations carries the object state at raise time,
  which is what a caller observing the exception sees.
-/

/-- Pose value `(x, y, theta)` — the contents of one numpy array cell. -/
structure Pose where
  x : ℚ
  y : ℚ
  th : ℚ
deriving DecidableEq, Repr

def Pose.add (p q : Pose) : Pose := ⟨p.x + q.x, p.y + q.y, p.th + q.th⟩

def Pose.sub (p q : Pose) : Pose := ⟨p.x - q.x, p.y - q.y, p.th - q.th⟩

def Pose.scale (p : Pose) (c : ℚ) : Pose := ⟨p.x * c, p.y * c, p.th * c⟩

/-- Exception kinds the embedded Python code can raise. -/
inductive Err where
  /-- a failed `assert` statement -/
  | assertionError
  /-- subscripting `None` (e.g. `det['center']` with `det = None`) -/
  | typeError
  /-- `sum(xs)/len(xs)` with `len(xs) = 0` -/
  | zeroDivisionError
  /-- deque negative index out of range -/
  | indexError
deriving DecidableEq, Repr

/-- The data `TrackingObject` reads off one AprilTag detection dict:
the tag id, the detection centre, the wrapped heading increment `dth`
produced by the continuity correction of `_get_state` (lines 96-97), and
the sqrt2-normalised pixel diagonal used by `_get_scale_factor`. -/
structure DetQ where
  id : ℤ
  cx : ℚ
  cy : ℚ
  dth : ℚ
  diag : ℚ
deriving DecidableEq, Repr

/-- State of one `TrackingObject`.  `store` is the heap of numpy array
cells; `x` and `history` hold indices into it (`self.x` and the history
entries are array references in the source).  `cap` is the `maxlen` both
deques were constructed with (`history_length`). -/
structure TObj where
  id : ℤ
  tag_length : Option ℚ
  x : Nat
  t : ℚ
  cap : Option Nat
  history : List Nat
  t_history : List ℚ
  scale_factor : Option ℚ
  missed_frames : Nat
  object_detected : Bool
  store : List Pose
deriving DecidableEq, Repr

/-- Value of the array cell `i` of the store. -/
def storeGet (s : TObj) (i : Nat) : Pose := s.store.getD i ⟨0, 0, 0⟩

/-- Value of the array `self.x` currently references. -/
def poseVal (s : TObj) : Pose := storeGet s s.x

/-- `deque.append` with `maxlen`: the new element goes to the right and,
when the deque is full, the leftmost (oldest) element is evicted. -/
def dequeAppend (cap : Option Nat) (l : List α) (a : α) : List α :=
  let l' := l ++ [a]
  match cap with
  | none => l'
  | some n => l'.drop (l'.length - n)

/-- `TrackingObject.__init__`: zero pose cell, `t = 0`, empty histories with
the given `maxlen`, no scale factor, no missed frames, not yet detected. -/
def mkTObj (ID : ℤ) (history_length : Option Nat) (tagLen : Option ℚ) : TObj :=
  { id := ID
    tag_length := tagLen
    x := 0
    t := 0
    cap := history_length
    history := []
    t_history := []
    scale_factor := none
    missed_frames := 0
    object_detected := false
    store := [⟨0, 0, 0⟩] }

/-- `TrackingObject._get_state`: the returned array is
`append(center + offset, new_theta)` with
`new_theta = self.x[2] + (mod(pi + (raw - self.x[2]), 2*pi) - pi)`;
the detection carries the wrapped increment `dth`, so the new theta is the
current cell's theta plus `dth` (see the Geometry section for the exact
real-valued angle computation). -/
def getStateQ (s : TObj) (d : DetQ) (off : ℚ × ℚ) : Pose :=
  ⟨d.cx + off.1, d.cy + off.2, (storeGet s s.x).th + d.dth⟩

/-- The `while self._missed_frames > 0` loop of `_smooth_missed_frames`:
at counter value `k+1` it reads `t_history[-(k+1)]` and does
`history[-(k+1)] += m*dt` — an in-place mutation of the referenced cell. -/
def smoothLoop (t0 : ℚ) (m : Pose) (hist : List Nat) (ts : List ℚ) :
    Nat → List Pose → List Pose
  | 0, store => store
  | k + 1, store =>
      let dt : ℚ := ts.getD (ts.length - (k + 1)) 0 - t0
      let ci : Nat := hist.getD (hist.length - (k + 1)) 0
      let store' := store.set ci ((store.getD ci ⟨0, 0, 0⟩).add (m.scale dt))
      smoothLoop t0 m hist ts k store'

/-- `TrackingObject._smooth_missed_frames`.  `t_history[-(1+mf)]` raises
`IndexError` when the deque holds fewer than `1 + mf` entries; otherwise
`t0` and `p0` are the anchor entry, `m = (self.x - p0)/(self.t - t0)`, and
the loop rewrites the cells referenced by the last `mf` history entries.
The counter ends at `0`. -/
def smoothMissedFrames (s : TObj) : Except Err TObj :=
  if s.t_history.length < 1 + s.missed_frames then .error .indexError
  else
    let t0 : ℚ := s.t_history.getD (s.t_history.length - (1 + s.missed_frames)) 0
    let p0 : Pose := storeGet s (s.history.getD (s.history.length - (1 + s.missed_frames)) 0)
    let m : Pose := ((storeGet s s.x).sub p0).scale (1 / (s.t - t0))
    .ok { s with
            store := smoothLoop t0 m s.history s.t_history s.missed_frames s.store
            missed_frames := 0 }

/-- `TrackingObject.init_detection`.  Subscripting an absent detection
(`det = None`, as the acquisition timeout path does) raises `TypeError`
inside `_get_state` before any attribute is assigned.  Otherwise: a fresh
cell for the new pose, the scale factor when `tag_length` is configured,
`self.t = t`, both histories appended, detected flag set.  There is no
already-initialized guard in the source. -/
def initDetection (t : ℚ) (det : Option DetQ) (off : ℚ × ℚ) (s : TObj) :
    Except (Err × TObj) TObj :=
  match det with
  | none => .error (.typeError, s)
  | some d =>
      let p : Pose := getStateQ s d off
      let s1 : TObj := { s with store := s.store ++ [p], x := s.store.length }
      let s2 : TObj :=
        match s1.tag_length with
        | some tl => { s1 with scale_factor := some (d.diag / tl) }
        | none => s1
      let s3 : TObj := { s2 with t := t }
      .ok { s3 with
              t_history := dequeAppend s3.cap s3.t_history s3.t
              history := dequeAppend s3.cap s3.history s3.x
              object_detected := true }

/-- `TrackingObject.add_timestep`.  The `assert self._object_detected` fires
first, before any mutation.  Then `self.t = t`; on a miss the counter is
incremented and the current cell reference is appended as a placeholder; on
a detection a fresh cell is allocated for the new pose and, when frames were
missed, `_smooth_missed_frames` runs before the appends. -/
def addTimestep (t : ℚ) (det : Option DetQ) (off : ℚ × ℚ) (s : TObj) :
    Except (Err × TObj) TObj :=
  if s.object_detected = true then
    let s1 : TObj := { s with t := t }
    match det with
    | none =>
        let s2 : TObj := { s1 with missed_frames := s1.missed_frames + 1 }
        .ok { s2 with
                history := dequeAppend s2.cap s2.history s2.x
                t_history := dequeAppend s2.cap s2.t_history s2.t }
    | some d =>
        let p : Pose := getStateQ s1 d off
        let s2 : TObj := { s1 with store := s1.store ++ [p], x := s1.store.length }
        if s2.missed_frames > 0 then
          match smoothMissedFrames s2 with
          | .error e => .error (e, s2)
          | .ok s3 =>
              .ok { s3 with
                      history := dequeAppend s3.cap s3.history s3.x
                      t_history := dequeAppend s3.cap s3.t_history s3.t }
        else
          .ok { s2 with
                  history := dequeAppend s2.cap s2.history s2.x
                  t_history := dequeAppend s2.cap s2.t_history s2.t }
  else .error (.assertionError, s)

/-- Ok-projection of an `Except` result. -/
def resOk : Except e a → Option a
  | .ok x => some x
  | .error _ => none

/-- Error-projection of an `Except` result. -/
def resErr : Except e a → Option e
  | .ok _ => none
  | .error x => some x

/-- Run `init_detection` and keep the resulting state (the runs used below
never hit the error branch here). -/
def initD (t : ℚ) (d : DetQ) (s : TObj) : TObj :=
  (resOk (initDetection t (some d) (0, 0) s)).getD s

/-- Run `add_timestep` (zero offset) and keep the resulting state. -/
def stepD (t : ℚ) (d : Option DetQ) (s : TObj) : TObj :=
  (resOk (addTimestep t d (0, 0) s)).getD s

/-- The values of the history entries, oldest first (dereferencing the
cell indices through the store). -/
def historyVals (s : TObj) : List Pose := s.history.map (storeGet s)

-- Scenario of the interpolation claims: initialize at t=0 with pose
-- (0,0,0), miss at t=1 and t=2, detect at t=3 with pose (6,0,0).
/-- State after initialization at `t = 0` with pose `(0,0,0)`. -/
def gapRun0 : TObj := initD 0 ⟨1, 0, 0, 0, 0⟩ (mkTObj 1 none none)

/-- State after the two missed frames at `t = 1`, `t = 2`. -/
def gapRun2 : TObj := stepD 2 none (stepD 1 none gapRun0)

/-- State after the detection at `t = 3` yielding pose `(6,0,0)`. -/
def gapRun3 : TObj := stepD 3 (some ⟨1, 6, 0, 0, 0⟩) gapRun2

/-!
### Tracker level (`src/tracking.py`, class `Tracking`)

Frame capture and AprilTag detection are external collaborators; a call to
`capture_frame` + `detect_frame` is modelled by consuming one element of a
given list of detection lists, and each `time.time()` call by consuming one
element of a given list of clock readings.
-/

/-- Python's `sum` over a list of optional values: it raises (`none`) at the
first `None` summand. -/
def allSome : List (Option α) → Option (List α)
  | [] => some []
  | none :: _ => none
  | some a :: l => (allSome l).map (fun r => a :: r)

/-- `Tracking.get_scale_factor`: collect `obj.scale_factor` over the objects
with a configured `tag_length` and return `sum/len`.  The source guards
nothing: an empty collection raises `ZeroDivisionError`; a collected `None`
(calibrated object never initialized) would make `sum` raise `TypeError`. -/
def getScaleFactor (objs : List TObj) : Except Err ℚ :=
  let sfs : List (Option ℚ) :=
    (objs.filter (fun o => o.tag_length.isSome)).map (fun o => o.scale_factor)
  if sfs.isEmpty then .error .zeroDivisionError
  else
    match allSome sfs with
    | none => .error .typeError
    | some qs => .ok (qs.sum / (qs.length : ℚ))

/-- `Tracking.save_detections`: `t` is the frame timestamp, `off` the crop
offset `roi_dims[0:2]`; each object whose id is absent from the detection
list gets `add_timestep(t, None, offset)`, the others get the first
detection with their id (drawing on the frame is display-only and not
modelled).  `none` stands for a raised exception. -/
def saveDetections (t : ℚ) (dets : List DetQ) (off : ℚ × ℚ) :
    List TObj → Option (List TObj)
  | [] => some []
  | o :: os =>
      match addTimestep t (dets.find? (fun d => d.id = o.id)) off o with
      | .error _ => none
      | .ok o' => (saveDetections t dets off os).map (fun l => o' :: l)

/-- The `while det is None` acquisition loop of `Tracking._init_tracking`
for one object: each iteration captures a frame (consuming one detection
list), looks the object's id up in it, and on failure compares the current
clock reading against the hard-coded 5-second budget — `break` leaves the
loop with `det = None`.  Returns the loop's final `det` and the unconsumed
streams, or `none` when the given streams are exhausted. -/
def acquireOne (objId : ℤ) (t_start : ℚ) :
    List (List DetQ) → List ℚ → Option (Option DetQ × List (List DetQ) × List ℚ)
  | [], _ => none
  | _, [] => none
  | ds :: frames, tm :: clocks =>
      match ds.find? (fun d => d.id = objId) with
      | some d => some (some d, frames, clocks)
      | none =>
          if 5 < tm - t_start then some (none, frames, clocks)
          else acquireOne objId t_start frames clocks

/-- The per-object portion of `Tracking._init_tracking`: acquire each object
in order, call `obj.init_detection(0, det)` with whatever `det` the loop
ended with (on timeout that is `None`), then recompute the tracker's
aggregate scale factor.  An exception anywhere leaves the remaining objects
untouched; the error payload carries all object states at raise time. -/
def initTrackingAux (acc : List TObj) :
    List TObj → List (List DetQ) → List ℚ →
      Option (Except (Err × List TObj) (List TObj))
  | [], _, _ => some (.ok acc)
  | o :: rest, frames, clocks =>
      match clocks with
      | [] => none
      | t0 :: cl =>
          match acquireOne o.id t0 frames cl with
          | none => none
          | some (det, frames', clocks') =>
              match initDetection 0 det (0, 0) o with
              | .error (e, o') => some (.error (e, acc ++ o' :: rest))
              | .ok o' =>
                  match getScaleFactor (acc ++ o' :: rest) with
                  | .error e => some (.error (e, acc ++ o' :: rest))
                  | .ok _ => initTrackingAux (acc ++ [o']) rest frames' clocks'

/-- `Tracking._init_tracking` acquisition (detector construction and `t0`
bookkeeping aside), driven by a stream of per-frame detection lists and a
stream of `time.time()` readings. -/
def initTracking (objs : List TObj) (frames : List (List DetQ)) (clocks : List ℚ) :
    Option (Except (Err × List TObj) (List TObj)) :=
  initTrackingAux [] objs frames clocks

/-- An object of identity `i` initialized at `t = 0` with pose `(i, 0, 0)`
(used in the partial-detection tracker scenario). -/
def trkObj (i : ℤ) : TObj := initD 0 ⟨i, (i : ℚ), 0, 0, 0⟩ (mkTObj i none none)

/-- Tracker step at `t = 1` on identities 1, 2, 3 where only identity 2 is
present in the frame's detection set (with pose `(9, 9, 0)`). -/
def trkStep : Option (List TObj) :=
  saveDetections 1 [⟨2, 9, 9, 0, 0⟩] (0, 0) [trkObj 1, trkObj 2, trkObj 3]

/-- A calibrated object (`tag_length = 1`) initialized with a detection of
normalised diagonal `sf`, whose stored scale factor is therefore `sf`. -/
def calObj (i : ℤ) (sf : ℚ) : TObj := initD 0 ⟨i, 0, 0, 0, sf⟩ (mkTObj i none (some 1))

/-!
### Geometry (`TrackingObject._get_state`, lines 86-99, over ℝ)

The angle part of `_get_state` is:
`theta = np.mod(np.arctan2(center_top[1]-center[1], center_top[0]-center[0]), 2*np.pi)`,
`dtheta = theta - self.x[2]`, `dtheta = np.mod((np.pi+dtheta), 2*np.pi) - np.pi`,
`new_theta = self.x[2] + dtheta`, with
`center_top = (corners[2] + corners[3]) / 2` (top-right and top-left corners).
`np.mod(a, b)` for `b > 0` is the floored modulo `a - b*floor(a/b)`, and
`np.arctan2(y, x)` is the argument of the complex number `x + y*i`.
-/

open Real

/-- `np.mod` (floored modulo) over ℝ. -/
noncomputable def npMod (a b : ℝ) : ℝ := a - b * ⌊a / b⌋

/-- `np.arctan2 y x`: the argument of `x + y*i`, in `(-pi, pi]`. -/
noncomputable def atan2 (y x : ℝ) : ℝ := Complex.arg ⟨x, y⟩

/-- The geometric data of one detection used by `_get_state`: the centre
and the top-right and top-left corners (`lb-rb-rt-lt` indices 2 and 3). -/
structure DetR where
  cx : ℝ
  cy : ℝ
  rtx : ℝ
  rty : ℝ
  ltx : ℝ
  lty : ℝ

/-- The raw heading of a detection: `arctan2` of the vector from the centre
to the midpoint of the top edge, wrapped into `[0, 2*pi)`. -/
noncomputable def rawHeading (d : DetR) : ℝ :=
  npMod (atan2 ((d.rty + d.lty) / 2 - d.cy) ((d.rtx + d.ltx) / 2 - d.cx)) (2 * π)

/-- The continuity correction of lines 96-97:
`dtheta = np.mod((np.pi + (raw - prev)), 2*np.pi) - np.pi`. -/
noncomputable def wrapDelta (raw prev : ℝ) : ℝ := npMod (π + (raw - prev)) (2 * π) - π

/-- The full state returned by `_get_state`: `append(center + offset, new_theta)`
with `new_theta = prev + wrapDelta (rawHeading d) prev`. -/
noncomputable def getStateR (d : DetR) (off : ℝ × ℝ) (prev : ℝ) : ℝ × ℝ × ℝ :=
  (d.cx + off.1, d.cy + off.2, prev + wrapDelta (rawHeading d) prev)

/-- The thetas stored over a run of consecutive successful detections: each
call of `_get_state` uses the theta of the previous one as `self.x[2]`. -/
noncomputable def detectThetas (prev : ℝ) : List DetR → List ℝ
  | [] => []
  | d :: ds => (getStateR d (0, 0) prev).2.2 :: detectThetas (getStateR d (0, 0) prev).2.2 ds

/-!
### History-capacity machinery (for the bounded-history invariant)

A deque with `maxlen = n` always holds the last `n` appended elements:
`dequeAppend (some n) l a` is `takeLast n (l ++ [a])`, and folding appends
over a run keeps exactly the most recent elements.
-/

/-- The last `n` elements of a list (all of it when it is shorter). -/
def takeLast (n : Nat) (l : List α) : List α := l.drop (l.length - n)

/-- Cut a list down to a deque capacity. -/
def capFit (cap : Option Nat) (l : List α) : List α :=
  match cap with
  | none => l
  | some n => takeLast n l

/-- A run of `add_timestep` calls (zero offset), propagating exceptions. -/
def runSteps (s : TObj) : List (ℚ × Option DetQ) → Except (Err × TObj) TObj
  | [] => .ok s
  | (t, d) :: rest =>
      match addTimestep t d (0, 0) s with
      | .error e => .error e
      | .ok s' => runSteps s' rest

/-- Steps of the capacity scenario: four detected frames at `t = 1..4` with
poses `(1,0,0) .. (4,0,0)`. -/
def capSteps : List (ℚ × Option DetQ) :=
  [(1, some ⟨1, 1, 0, 0, 0⟩), (2, some ⟨1, 2, 0, 0, 0⟩),
   (3, some ⟨1, 3, 0, 0, 0⟩), (4, some ⟨1, 4, 0, 0, 0⟩)]

/-- Capacity-3 object initialized at `t = 0` with pose `(0,0,0)`. -/
def capInit : TObj := initD 0 ⟨1, 0, 0, 0, 0⟩ (mkTObj 1 (some 3) none)

/-- The capacity scenario's final state: initialization plus four steps,
five appended entries in total, capacity 3. -/
def capRun : TObj := (resOk (runSteps capInit capSteps)).getD capInit

theorem npMod_nonneg (a b : ℝ) (hb : 0 < b) : 0 ≤ npMod a b := by
  have h : (⌊a / b⌋ : ℝ) ≤ a / b := Int.floor_le _
  have h2 : b * (⌊a / b⌋ : ℝ) ≤ b * (a / b) := mul_le_mul_of_nonneg_left h hb.le
  have h3 : b * (a / b) = a := by
    rw [mul_comm]
    exact div_mul_cancel₀ a hb.ne'
  unfold npMod
  linarith

theorem npMod_lt (a b : ℝ) (hb : 0 < b) : npMod a b < b := by
  have h : a / b < (⌊a / b⌋ : ℝ) + 1 := Int.lt_floor_add_one _
  have h2 : a < ((⌊a / b⌋ : ℝ) + 1) * b := (div_lt_iff₀ hb).1 h
  unfold npMod
  nlinarith

theorem wrapDelta_lb (raw prev : ℝ) : -π ≤ wrapDelta raw prev := by
  have h := npMod_nonneg (π + (raw - prev)) (2 * π) (by positivity)
  unfold wrapDelta
  linarith

theorem wrapDelta_ub (raw prev : ℝ) : wrapDelta raw prev < π := by
  have h := npMod_lt (π + (raw - prev)) (2 * π) (by positivity)
  unfold wrapDelta
  linarith

theorem npMod_zero_left (b : ℝ) : npMod 0 b = 0 := by
  simp [npMod]

theorem wrapDelta_zero_pi : wrapDelta 0 π = -π := by
  have h : π + ((0 : ℝ) - π) = 0 := by ring
  rw [wrapDelta, h, npMod_zero_left]
  ring

theorem dequeAppend_eq_capFit (cap : Option Nat) (l : List α) (a : α) :
    dequeAppend cap l a = capFit cap (l ++ [a]) := by
  cases cap <;> rfl

theorem takeLast_length (n : Nat) (l : List α) :
    (takeLast n l).length = l.length - (l.length - n) := by
  simp [takeLast]

theorem takeLast_length_le (n : Nat) (l : List α) : (takeLast n l).length ≤ n := by
  rw [takeLast_length]
  omega

theorem takeLast_append_left (n : Nat) (l r : List α) :
    takeLast n (takeLast n l ++ r) = takeLast n (l ++ r) := by
  rcases le_or_lt l.length n with h | h
  · have : takeLast n l = l := by
      unfold takeLast
      rw [Nat.sub_eq_zero_of_le h, List.drop_zero]
    rw [this]
  · unfold takeLast
    rw [List.length_append, List.length_append, List.length_drop]
    rw [List.drop_append_eq_append_drop, List.drop_append_eq_append_drop]
    rw [List.drop_drop, List.length_drop]
    congr 2 <;> omega

theorem capFit_append_left (cap : Option Nat) (l r : List α) :
    capFit cap (capFit cap l ++ r) = capFit cap (l ++ r) := by
  cases cap with
  | none => rfl
  | some n => exact takeLast_append_left n l r

theorem foldl_dequeAppend (cap : Option Nat) (l : List α) (ts : List α) (hts : ts ≠ []) :
    List.foldl (dequeAppend cap) l ts = capFit cap (l ++ ts) := by
  induction ts generalizing l with
  | nil => exact absurd rfl hts
  | cons t rest ih =>
      rcases eq_or_ne rest [] with hr | hr
      · subst hr
        simp [dequeAppend_eq_capFit]
      · rw [List.foldl_cons, ih (dequeAppend cap l t) hr, dequeAppend_eq_capFit,
          capFit_append_left]
        simp

theorem capFit_sorted (cap : Option Nat) (l : List ℚ)
    (h : List.Sorted (· < ·) l) : List.Sorted (· < ·) (capFit cap l) := by
  cases cap with
  | none => exact h
  | some n => exact List.Pairwise.sublist (List.drop_sublist _ _) h


theorem dequeAppend_length (cap : Option Nat) (l : List α) (a : α) :
    (dequeAppend cap l a).length =
      match cap with
      | none => l.length + 1
      | some n => min n (l.length + 1) := by
  cases cap with
  | none => simp [dequeAppend]
  | some n => simp [dequeAppend]; omega

theorem smoothMissedFrames_ok_shape {s s' : TObj}
    (h : smoothMissedFrames s = .ok s') :
    s'.cap = s.cap ∧ s'.t_history = s.t_history ∧ s'.history = s.history ∧
      s'.x = s.x ∧ s'.t = s.t ∧ s'.object_detected = s.object_detected := by
  unfold smoothMissedFrames at h
  split at h
  · exact absurd h (by simp)
  · injection h with h
    subst h
    exact ⟨rfl, rfl, rfl, rfl, rfl, rfl⟩

theorem addTimestep_ok_shape {t : ℚ} {d : Option DetQ} {off : ℚ × ℚ} {s s' : TObj}
    (h : addTimestep t d off s = .ok s') :
    s'.cap = s.cap ∧ s'.t_history = dequeAppend s.cap s.t_history t ∧
      (∃ c, s'.history = dequeAppend s.cap s.history c) ∧
      s'.object_detected = true := by
  unfold addTimestep at h
  split at h
  case isTrue hdet =>
    cases d with
    | none =>
        injection h with h
        subst h
        exact ⟨rfl, rfl, ⟨s.x, rfl⟩, hdet⟩
    | some det =>
        dsimp only at h
        split at h
        · split at h
          case h_1 e heq => exact absurd h (by simp)
          case h_2 s3 heq =>
              injection h with h
              subst h
              obtain ⟨hcap, hts, hh, hx, ht, hdet2⟩ := smoothMissedFrames_ok_shape heq
              refine ⟨hcap, ?_, ⟨s3.x, ?_⟩, by rw [hdet2]; exact hdet⟩
              · rw [hcap, hts, ht]
              · rw [hcap, hh]
        · injection h with h
          subst h
          exact ⟨rfl, rfl, ⟨s.store.length, rfl⟩, hdet⟩
  case isFalse => exact absurd h (by simp)

theorem runSteps_ok_shape {s s' : TObj} {steps : List (ℚ × Option DetQ)}
    (h : runSteps s steps = .ok s') :
    s'.cap = s.cap ∧
      s'.t_history = List.foldl (dequeAppend s.cap) s.t_history (steps.map Prod.fst) ∧
      (s.history.length = s.t_history.length →
        s'.history.length = s'.t_history.length) := by
  induction steps generalizing s with
  | nil =>
      injection h with h
      subst h
      exact ⟨rfl, rfl, fun hl => hl⟩
  | cons step rest ih =>
      obtain ⟨tt, dd⟩ := step
      unfold runSteps at h
      split at h
      case h_1 => exact absurd h (by simp)
      case h_2 s1 heq =>
          obtain ⟨hcap1, hts1, ⟨c, hh1⟩, _⟩ := addTimestep_ok_shape heq
          obtain ⟨hcap2, hts2, hlen2⟩ := ih h
          refine ⟨by rw [hcap2, hcap1], ?_, ?_⟩
          · rw [hts2, hcap1, hts1]
            simp
          · intro hl
            refine hlen2 ?_
            rw [hts1, hh1, dequeAppend_length, dequeAppend_length, hl]

theorem getD_append_self (l : List α) (a d : α) : (l ++ [a]).getD l.length d = a := by
  induction l with
  | nil => rfl
  | cons x xs ih => simp

/-- C10: on an object still in the Unseen state (`_object_detected = false`)
`add_timestep` raises the assertion error before any field is modified:
the error payload is exactly the pre-call state, every field included. -/
theorem c10_update_before_init_atomic (t : ℚ) (det : Option DetQ) (off : ℚ × ℚ)
    (s : TObj) (h : s.object_detected = false) :
    addTimestep t det off s = .error (.assertionError, s) := by
  simp [addTimestep, h]

theorem c10_update_before_init_atomic_witness :
    addTimestep 1 none (0, 0) (mkTObj 7 none none) =
      .error (.assertionError, mkTObj 7 none none) :=
  c10_update_before_init_atomic 1 none (0, 0) (mkTObj 7 none none) (by decide)

/-- C5: an `add_timestep` with detection absent increments `missed_frames`
by one, advances the timestamp, appends one placeholder entry referencing
the current pose array to each history, and leaves the current pose value
unchanged; in the three-identity tracker step where only identity 2 is
detected, identities 1 and 3 get exactly this change while identity 2 gets
a fresh pose and `missed_frames = 0`. -/
theorem c5_missed_detection_update :
    (∀ (s : TObj) (t : ℚ) (off : ℚ × ℚ), s.object_detected = true →
        addTimestep t none off s =
          .ok { s with
                  t := t
                  missed_frames := s.missed_frames + 1
                  history := dequeAppend s.cap s.history s.x
                  t_history := dequeAppend s.cap s.t_history t } ∧
        poseVal { s with
                  t := t
                  missed_frames := s.missed_frames + 1
                  history := dequeAppend s.cap s.history s.x
                  t_history := dequeAppend s.cap s.t_history t } = poseVal s) ∧
    (trkObj 1).missed_frames = 0 ∧ (trkObj 2).missed_frames = 0 ∧
    (trkObj 3).missed_frames = 0 ∧
    poseVal (trkObj 1) = ⟨1, 0, 0⟩ ∧ poseVal (trkObj 3) = ⟨3, 0, 0⟩ ∧
    (trkStep.getD []).map (fun o => o.missed_frames) = [1, 0, 1] ∧
    (trkStep.getD []).map poseVal = [⟨1, 0, 0⟩, ⟨9, 9, 0⟩, ⟨3, 0, 0⟩] ∧
    (trkStep.getD []).map (fun o => o.t) = [1, 1, 1] := by
  refine ⟨fun s t off h => ⟨by simp [addTimestep, h], rfl⟩, by decide, by decide, by decide,
    ?_, ?_, ?_, ?_, ?_⟩
  · norm_num [trkObj, poseVal, initD, mkTObj, initDetection, resOk, getStateQ, storeGet,
      dequeAppend]
  · norm_num [trkObj, poseVal, initD, mkTObj, initDetection, resOk, getStateQ, storeGet,
      dequeAppend]
  · norm_num [trkStep, trkObj, saveDetections, initD, mkTObj, addTimestep, initDetection,
      resOk, getStateQ, storeGet, dequeAppend, List.find?]
  · norm_num [trkStep, trkObj, saveDetections, initD, mkTObj, addTimestep, initDetection,
      resOk, poseVal, getStateQ, storeGet, dequeAppend, List.find?]
  · norm_num [trkStep, trkObj, saveDetections, initD, mkTObj, addTimestep, initDetection,
      resOk, getStateQ, storeGet, dequeAppend, List.find?]

theorem c5_missed_detection_update_witness :
    addTimestep 5 none (0, 0) (trkObj 1) =
      .ok { trkObj 1 with
              t := 5
              missed_frames := (trkObj 1).missed_frames + 1
              history := dequeAppend (trkObj 1).cap (trkObj 1).history (trkObj 1).x
              t_history := dequeAppend (trkObj 1).cap (trkObj 1).t_history 5 } :=
  (c5_missed_detection_update.1 (trkObj 1) 5 (0, 0) (by decide)).1

/-- C7 counterexample: calling `init_detection` on an object already in the
Tracking state does not fail — it succeeds and appends a second history
entry, refuting the claimed `AlreadyInitialized` state error. -/
theorem c7_reinit_counterexample :
    (trkObj 1).object_detected = true ∧
    resErr (initDetection 1 (some ⟨1, 5, 0, 0, 0⟩) (0, 0) (trkObj 1)) = none ∧
    ((resOk (initDetection 1 (some ⟨1, 5, 0, 0, 0⟩) (0, 0) (trkObj 1))).getD
        (trkObj 1)).history.length = 2 := by
  exact ⟨by decide, by decide, by decide⟩

/-- C7 (amended): `init_detection` has no already-initialized guard — for
every object state, Tracking or not, it succeeds, recomputes the pose into
a fresh cell, sets the timestamp, and appends one more entry to each
history. -/
theorem c7_reinit_recomputes_and_appends (s : TObj) (t : ℚ) (d : DetQ) (off : ℚ × ℚ) :
    ∃ s', initDetection t (some d) off s = .ok s' ∧
      s'.object_detected = true ∧ s'.t = t ∧ s'.x = s.store.length ∧
      s'.history = dequeAppend s.cap s.history s.store.length ∧
      s'.t_history = dequeAppend s.cap s.t_history t ∧
      storeGet s' s'.x = getStateQ s d off := by
  cases htl : s.tag_length with
  | none =>
      refine ⟨{ s with
                  store := s.store ++ [getStateQ s d off]
                  x := s.store.length
                  t := t
                  t_history := dequeAppend s.cap s.t_history t
                  history := dequeAppend s.cap s.history s.store.length
                  object_detected := true }, ?_, rfl, rfl, rfl, rfl, rfl, ?_⟩
      · simp [initDetection, htl]
      · exact getD_append_self _ _ _
  | some tl =>
      refine ⟨{ s with
                  store := s.store ++ [getStateQ s d off]
                  x := s.store.length
                  scale_factor := some (d.diag / tl)
                  t := t
                  t_history := dequeAppend s.cap s.t_history t
                  history := dequeAppend s.cap s.history s.store.length
                  object_detected := true }, ?_, rfl, rfl, rfl, rfl, rfl, ?_⟩
      · simp [initDetection, htl]
      · exact getD_append_self _ _ _

/-- C1 failing-input evaluation: initialize at `t=0` with pose `(0,0,0)`,
miss at `t=1` and `t=2`, detect at `t=3` with pose `(6,0,0)`.  Because the
two placeholder entries and the anchor all reference the same array and the
loop's `+=` mutates it in place, every gap entry ends at `(6,0,0)` — not at
the interpolated `(2,0,0)` and `(4,0,0)` the claim states. -/
theorem c1_interpolation_broken :
    gapRun3.t_history = [0, 1, 2, 3] ∧
    historyVals gapRun3 = [⟨6, 0, 0⟩, ⟨6, 0, 0⟩, ⟨6, 0, 0⟩, ⟨6, 0, 0⟩] ∧
    ¬(storeGet gapRun3 (gapRun3.history.getD 1 0) = ⟨2, 0, 0⟩ ∧
      storeGet gapRun3 (gapRun3.history.getD 2 0) = ⟨4, 0, 0⟩) := by
  have h1 : storeGet gapRun3 (gapRun3.history.getD 1 0) = ⟨6, 0, 0⟩ := by
    norm_num [gapRun3, gapRun2, gapRun0, stepD, initD, mkTObj, addTimestep,
      initDetection, resOk, getStateQ, storeGet, smoothMissedFrames, smoothLoop, dequeAppend,
      Pose.add, Pose.sub, Pose.scale]
  refine ⟨by decide, ?_, ?_⟩
  · norm_num [historyVals, gapRun3, gapRun2, gapRun0, stepD, initD, mkTObj, addTimestep,
      initDetection, resOk, getStateQ, storeGet, smoothMissedFrames, smoothLoop, dequeAppend,
      Pose.add, Pose.sub, Pose.scale]
  · intro hc
    rw [h1] at hc
    exact absurd hc.1 (by decide)

/-- C4 failing-input evaluation: in the same gap scenario, the smoothing
step of the `t=3` update also rewrites the anchor entry (the last
successfully-detected entry, stored `missed_frames + 1 = 3` positions back,
i.e. at index 0): its value was `(0,0,0)` before the update and `(6,0,0)`
after, contradicting the claim that entries at or before the anchor keep
their values. -/
theorem c4_anchor_mutated :
    gapRun2.missed_frames = 2 ∧
    gapRun2.history.length = 3 ∧
    gapRun3.history.getD 0 0 = gapRun2.history.getD 0 0 ∧
    storeGet gapRun2 (gapRun2.history.getD 0 0) = ⟨0, 0, 0⟩ ∧
    storeGet gapRun3 (gapRun3.history.getD 0 0) = ⟨6, 0, 0⟩ := by
  refine ⟨by decide, by decide, by decide, ?_, ?_⟩
  · norm_num [gapRun2, gapRun0, stepD, initD, mkTObj, addTimestep,
      initDetection, resOk, getStateQ, storeGet, dequeAppend]
  · norm_num [gapRun3, gapRun2, gapRun0, stepD, initD, mkTObj, addTimestep,
      initDetection, resOk, getStateQ, storeGet, smoothMissedFrames, smoothLoop, dequeAppend,
      Pose.add, Pose.sub, Pose.scale]

/-- C8 evaluation: with no object calibrated, `get_scale_factor` reaches
`sum([])/len([])` and raises `ZeroDivisionError` — there is no guarded
`NoCalibratedMarkers` error in the source; with calibrated objects present
it returns the arithmetic mean of the stored scale factors
(`(5 + 7)/2 = 6`). -/
theorem c8_scale_factor_divzero :
    resErr (getScaleFactor [mkTObj 1 none none, mkTObj 2 none none]) =
      some .zeroDivisionError ∧
    resErr (getScaleFactor []) = some .zeroDivisionError ∧
    resOk (getScaleFactor [calObj 1 5, calObj 2 7, trkObj 3]) = some 6 := by
  refine ⟨by decide, by decide, ?_⟩
  norm_num [calObj, trkObj, getScaleFactor, allSome, initD, mkTObj, initDetection,
    resOk, getStateQ, storeGet, dequeAppend]

/-- C2 failing-input evaluation: identity 1 is configured first, the frame
stream never contains it, and the clock exceeds the 5-second budget
(`t_start = 0`, reading `6`).  The loop breaks with `det = None` and
`_init_tracking` then calls `obj.init_detection(0, None)`, which raises
`TypeError` — not a dedicated acquisition-timeout failure — after having
attempted an initialization from an absent detection; the remaining
identity 2 is left untouched (still Unseen) only because the exception
aborts the whole procedure. -/
theorem c2_acquisition_timeout_typeerror :
    (initTracking [mkTObj 1 none none, mkTObj 2 none none] [[]] [0, 6]).map resErr =
      some (some (.typeError, [mkTObj 1 none none, mkTObj 2 none none])) ∧
    (mkTObj 2 none none).object_detected = false := by
  refine ⟨?_, by decide⟩
  norm_num [initTracking, initTrackingAux, acquireOne, initDetection, mkTObj,
    resErr, List.find?]

/-- C9 counterexample: at raw heading `0` (which lies in `[0, 2*pi)`) and
previous theta `pi`, the wrapped delta `mod(pi + (0 - pi), 2*pi) - pi`
equals exactly `-pi`, which is not in the claimed interval `(-pi, pi]`:
a delta of exactly `-pi` is produced. -/
theorem c9_wrap_counterexample :
    (0 ≤ (0 : ℝ) ∧ (0 : ℝ) < 2 * π) ∧
    wrapDelta 0 π = -π ∧
    ¬(-π < wrapDelta 0 π ∧ wrapDelta 0 π ≤ π) := by
  refine ⟨⟨le_refl 0, by positivity⟩, wrapDelta_zero_pi, ?_⟩
  rw [wrapDelta_zero_pi]
  exact fun h => lt_irrefl (-π) h.1

/-- C9 (amended): for every raw heading and previous theta the wrapped
delta `mod(pi + (raw - prev), 2*pi) - pi` lies in the half-open interval
`[-pi, pi)` — in particular a delta of exactly `+pi` is never produced,
while `-pi` can be. -/
theorem c9_wrap_interval (raw prev : ℝ) :
    -π ≤ wrapDelta raw prev ∧ wrapDelta raw prev < π :=
  ⟨wrapDelta_lb raw prev, wrapDelta_ub raw prev⟩

/-- The theta returned by one `_get_state` call differs from the previous
theta by at most `pi` in magnitude. -/
theorem getStateR_theta_close (d : DetR) (off : ℝ × ℝ) (prev : ℝ) :
    |(getStateR d off prev).2.2 - prev| ≤ π := by
  have h1 := wrapDelta_lb (rawHeading d) prev
  have h2 := wrapDelta_ub (rawHeading d) prev
  rw [getStateR]
  rw [abs_le]
  constructor <;> simp <;> linarith

/-- C3: the theta that `_get_state` returns differs from the previous
pose's theta by at most `pi` in magnitude, for every detection geometry,
offset and previous theta; consequently, along any run of consecutive
successful detections (each call using the theta produced by the previous
one), consecutive theta values differ in magnitude by at most `pi`. -/
theorem c3_angle_continuity :
    (∀ (d : DetR) (off : ℝ × ℝ) (prev : ℝ), |(getStateR d off prev).2.2 - prev| ≤ π) ∧
    ∀ (prev : ℝ) (ds : List DetR),
      List.Chain (fun a b => |b - a| ≤ π) prev (detectThetas prev ds) := by
  refine ⟨getStateR_theta_close, fun prev ds => ?_⟩
  induction ds generalizing prev with
  | nil => exact List.Chain.nil
  | cons d rest ih =>
      exact List.Chain.cons (getStateR_theta_close d (0, 0) prev) (ih _)

/-- C6: bounded history invariant.  For a capacity-`N` object, after any
successful run of updates the timestamp history is exactly the last `N` of
the previously-stored plus newly-appended timestamps (strict FIFO eviction
of the oldest), its length is at most `N`, the pose history stays
index-aligned with it, and chronological order is preserved.  Concretely,
with capacity 3 and five appended entries (initialization at `t = 0` plus
four steps at `t = 1..4`) the history has length 3 and holds exactly the
three most recent entries in chronological order. -/
theorem c6_bounded_history :
    (∀ (N : Nat) (s s' : TObj) (steps : List (ℚ × Option DetQ)),
        s.cap = some N → steps ≠ [] →
        s.history.length = s.t_history.length →
        runSteps s steps = .ok s' →
        s'.t_history = takeLast N (s.t_history ++ steps.map Prod.fst) ∧
        s'.t_history.length ≤ N ∧
        s'.history.length = s'.t_history.length ∧
        (List.Sorted (· < ·) (s.t_history ++ steps.map Prod.fst) →
          List.Sorted (· < ·) s'.t_history)) ∧
    capRun.t_history = [2, 3, 4] ∧
    capRun.t_history.length = 3 ∧ capRun.history.length = 3 ∧
    List.Sorted (· < ·) capRun.t_history ∧
    historyVals capRun = [⟨2, 0, 0⟩, ⟨3, 0, 0⟩, ⟨4, 0, 0⟩] := by
  constructor
  · intro N s s' steps hcap hne hlen hrun
    obtain ⟨hcap', hts, hhl⟩ := runSteps_ok_shape hrun
    have hmap : steps.map Prod.fst ≠ [] := by
      intro h
      exact hne (List.map_eq_nil_iff.1 h)
    rw [hcap, foldl_dequeAppend (some N) _ _ hmap] at hts
    simp only [capFit] at hts
    refine ⟨hts, ?_, hhl hlen, ?_⟩
    · rw [hts]
      exact takeLast_length_le _ _
    · intro hsorted
      rw [hts]
      exact List.Pairwise.sublist (List.drop_sublist _ _) hsorted
  · refine ⟨by decide, by decide, by decide, by decide, ?_⟩
    simp [historyVals, capRun, capInit, capSteps, runSteps, initD, mkTObj, addTimestep,
      initDetection, resOk, getStateQ, storeGet, dequeAppend]

theorem c6_bounded_history_witness :
    capRun.t_history = takeLast 3 (capInit.t_history ++ capSteps.map Prod.fst) ∧
    capRun.t_history.length ≤ 3 ∧
    capRun.history.length = capRun.t_history.length ∧
    (List.Sorted (· < ·) (capInit.t_history ++ capSteps.map Prod.fst) →
      List.Sorted (· < ·) capRun.t_history) :=
  c6_bounded_history.1 3 capInit capRun capSteps (by decide) (by decide) (by decide)
    (by simp [capRun, capInit, capSteps, runSteps, initD, mkTObj, addTimestep,
      initDetection, resOk, getStateQ, storeGet, dequeAppend])
